import Mathlib

/-!
Shallow embedding of the vscode-meson extension core: target name
resolution (src/src/utils.ts getTargetName), task synthesis
(tasks source getMesonTasksForDir / getMesonTasks), test tree
reconciliation (src/src/tests.ts rebuildTestsForFolder / rebuildTests),
test run classification (tests.ts testRunHandler), debug configuration
derivation (tests.ts prepareTestInFolder) and the debug configuration
provider (provideDebugConfigurations).

Paths are modelled as lists of components; machine strings stay String.
Fallible introspection and thrown exceptions are modelled with Option.
-/

/-- A build option as returned by meson introspection
(consumed by utils.ts getTargetName via getMesonBuildOptions). -/
structure BuildOption where
  name : String
  value : String
deriving DecidableEq

/-- A source descriptor of a target; only the language tag is used
by the debug configuration provider. -/
structure TargetSource where
  language : String
deriving DecidableEq

/-- A meson target as returned by introspection. The defining file path
is modelled as a list of path components. -/
structure Target where
  id : String
  name : String
  type : String
  filename : List String
  defined_in : List String
  target_sources : List TargetSource
deriving DecidableEq

/-- A meson test or benchmark descriptor as returned by introspection. -/
structure TestDescr where
  name : String
  cmd : List String
  env : List (String × String)
  workdir : Option String
  depends : List String
deriving DecidableEq

/-- node path.dirname on a component list: drop the last component. -/
def pathDirname (p : List String) : List String := p.dropLast

/-- node path.relative on component lists: strip the shared leading
components, then one ".." per remaining component of the origin,
followed by the rest of the destination. -/
def pathRelative : List String → List String → List String
  | [], t => t
  | f, [] => f.map (fun _ => "..")
  | a :: f, b :: t =>
    if a = b then pathRelative f t
    else (a :: f).map (fun _ => "..") ++ (b :: t)

/-- Join path components with the forward-slash separator. -/
def slashJoin : List String → String
  | [] => ""
  | [a] => a
  | a :: rest => a ++ "/" ++ slashJoin rest

/-- path.posix.join of a relative directory (as components) with a final
name: joining with the empty relative path yields the bare name. -/
def posixJoin (rel : List String) (name : String) : String :=
  match rel with
  | [] => name
  | _ => slashJoin rel ++ "/" ++ name

/-- Render a component list as an absolute fsPath string. -/
def fsPathOf (ws : List String) : String := "/" ++ slashJoin ws

/-- The value of the first introspected build option named "layout",
if any (utils.ts getTargetName reads filter(name === "layout")[0]). -/
def layoutValue (buildOptions : List BuildOption) : Option String :=
  ((buildOptions.filter (fun o => o.name == "layout")).head?).map (fun o => o.value)

/-- utils.ts getTargetName: resolve the meson-addressable name of a
target. With layout "mirror" this is the directory of the defining file
relative to the workspace root, joined with the bare name using the
posix separator; otherwise it is meson-out/ followed by the bare name.
Returns none when the layout option is absent (the source would throw
a TypeError there). -/
def getTargetName (buildOptions : List BuildOption) (ws : List String) (target : Target) : Option String :=
  match layoutValue buildOptions with
  | none => none
  | some v =>
    if v = "mirror" then
      some (posixJoin (pathRelative ws (pathDirname target.defined_in)) target.name)
    else
      some ("meson-out/" ++ target.name)

/-- Propagate Option failure through a list, as an exception inside
Promise.all propagates out of the enclosing call. -/
def mapMO {α β : Type} (p : α → Option β) : List α → Option (List β)
  | [] => some []
  | a :: l => (p a).bind (fun b => (mapMO p l).map (fun bs => b :: bs))

/-- Task identity as used for vscode meson task definitions. -/
structure TaskDef where
  type : String
  mode : String
  target : Option String
  filename : Option String
deriving DecidableEq

/-- A process execution attached to a task: program, argument vector,
optional working directory and optional environment. -/
structure ProcExec where
  program : String
  args : List String
  cwd : Option String
  env : Option (List (String × String))
deriving DecidableEq

/-- A synthesized vscode task: definition tuple, display label,
execution and group. -/
structure MesonTask where
  defn : TaskDef
  label : String
  execution : ProcExec
  group : Option String
deriving DecidableEq

/-- The fixed build-all task: meson compile in the build directory. -/
def defaultBuildTask (mesonPath buildDir : String) : MesonTask :=
  { defn := ⟨"meson", "build", none, none⟩, label := "Build all targets",
    execution := ⟨mesonPath, ["compile"], some buildDir, none⟩, group := some "build" }

/-- The fixed test-all task: meson test in the build directory. -/
def defaultTestTask (mesonPath buildDir : String) : MesonTask :=
  { defn := ⟨"meson", "test", none, none⟩, label := "Run tests",
    execution := ⟨mesonPath, ["test"], some buildDir, none⟩, group := some "test" }

/-- The fixed benchmark-all task: meson test --benchmark --verbose. -/
def defaultBenchmarkTask (mesonPath buildDir : String) : MesonTask :=
  { defn := ⟨"meson", "benchmark", none, none⟩, label := "Run benchmarks",
    execution := ⟨mesonPath, ["test", "--benchmark", "--verbose"], some buildDir, none⟩,
    group := some "test" }

/-- The fixed reconfigure task: meson setup --reconfigure, run in the
workspace root (not the build directory). -/
def defaultReconfigureTask (mesonPath buildDir : String) (ws : List String) : MesonTask :=
  { defn := ⟨"meson", "reconfigure", none, none⟩, label := "Reconfigure",
    execution := ⟨mesonPath, ["setup", "--reconfigure", buildDir], some (fsPathOf ws), none⟩,
    group := some "rebuild" }

/-- The fixed clean task: meson compile --clean in the build directory. -/
def defaultCleanTask (mesonPath buildDir : String) : MesonTask :=
  { defn := ⟨"meson", "clean", none, none⟩, label := "Clean",
    execution := ⟨mesonPath, ["compile", "--clean"], some buildDir, none⟩,
    group := some "clean" }

/-- The per-target build task: meson compile with the resolved name. -/
def targetBuildTask (mesonPath buildDir targetName : String) : MesonTask :=
  { defn := ⟨"meson", "build", some targetName, none⟩, label := "Build " ++ targetName,
    execution := ⟨mesonPath, ["compile", targetName], some buildDir, none⟩,
    group := some "build" }

/-- The run task for an executable with exactly one output file: the
identity carries no filename, the execution starts the file directly. -/
def targetRunTaskSingle (targetName : String) (filenames : List String) : MesonTask :=
  { defn := ⟨"meson", "run", some targetName, none⟩, label := "Run " ++ targetName,
    execution := ⟨filenames.headD "", [], none, none⟩, group := some "test" }

/-- The run task for one output file of a multi-output executable: the
identity carries the file path, the execution runs it from the
workspace root. -/
def targetRunTaskMulti (ws : List String) (targetName f : String) : MesonTask :=
  { defn := ⟨"meson", "run", some targetName, some f⟩,
    label := "Run " ++ targetName ++ ": " ++ f,
    execution := ⟨f, [], some (fsPathOf ws), none⟩, group := some "test" }

/-- The per-target task list built inside getMesonTasksForDir: one build
task, and for executables one run task per output file, with the
filename recorded in the identity exactly when there are several output
files. Fails when getTargetName fails. -/
def mkTargetTasks (mesonPath buildDir : String) (ws : List String)
    (buildOptions : List BuildOption) (t : Target) : Option (List MesonTask) :=
  (getTargetName buildOptions ws t).map (fun targetName =>
    if t.type = "executable" then
      if t.filename.length = 1 then
        [targetBuildTask mesonPath buildDir targetName,
         targetRunTaskSingle targetName t.filename]
      else
        targetBuildTask mesonPath buildDir targetName ::
          t.filename.map (targetRunTaskMulti ws targetName)
    else [targetBuildTask mesonPath buildDir targetName])

/-- The per-test task: meson test with the test name, with the test
environment, in the build directory. -/
def testTask (mesonPath buildDir : String) (t : TestDescr) : MesonTask :=
  { defn := ⟨"meson", "test", some t.name, none⟩, label := "Test " ++ t.name,
    execution := ⟨mesonPath, ["test", t.name], some buildDir, some t.env⟩,
    group := some "test" }

/-- The per-benchmark task: meson test --benchmark --verbose with the
benchmark name. -/
def benchmarkTask (mesonPath buildDir : String) (b : TestDescr) : MesonTask :=
  { defn := ⟨"meson", "benchmark", some b.name, none⟩, label := "Benchmark " ++ b.name,
    execution := ⟨mesonPath, ["test", "--benchmark", "--verbose", b.name], some buildDir, some b.env⟩,
    group := some "test" }

/-- One introspection snapshot of a build directory. -/
structure IntrospectionData where
  targets : List Target
  tests : List TestDescr
  benchmarks : List TestDescr
  buildOptions : List BuildOption

/-- getMesonTasksForDir: the five fixed tasks, then per-target tasks,
then per-test tasks, then per-benchmark tasks. A failed introspection
call (data = none) or a failed target name resolution makes the whole
synthesis fall into the catch branch, which returns the empty list. -/
def getMesonTasksForDir (mesonPath buildDir : String) (ws : List String)
    (data : Option IntrospectionData) : List MesonTask :=
  match data with
  | none => []
  | some d =>
    match mapMO (mkTargetTasks mesonPath buildDir ws d.buildOptions) d.targets with
    | none => []
    | some perTarget =>
      [defaultBuildTask mesonPath buildDir, defaultTestTask mesonPath buildDir,
       defaultBenchmarkTask mesonPath buildDir, defaultReconfigureTask mesonPath buildDir ws,
       defaultCleanTask mesonPath buildDir]
      ++ perTarget.flatten
      ++ d.tests.map (testTask mesonPath buildDir)
      ++ d.benchmarks.map (benchmarkTask mesonPath buildDir)

/-- One workspace folder as seen by the task aggregator: its root path
components, whether its build directory exists on disk, the resolved
build directory, and the introspection outcome. -/
structure FolderInput where
  ws : List String
  buildDirExists : Bool
  buildDir : String
  data : Option IntrospectionData

/-- getMesonTasks: concatenate the per-directory task lists of every
workspace folder whose build directory exists. -/
def getMesonTasks (mesonPath : String) (folders : List FolderInput) : List MesonTask :=
  ((folders.filter (fun f => f.buildDirExists)).map
    (fun f => getMesonTasksForDir mesonPath f.buildDir f.ws f.data)).flatten

/-- A build task tied to a concrete target (mode build with a target in
the identity). -/
def isTargetBuildTask (tk : MesonTask) : Bool :=
  tk.defn.mode == "build" && tk.defn.target.isSome

/-- The run tasks among the per-target tasks of one target. -/
def runTasksOf (mesonPath buildDir : String) (ws : List String)
    (buildOptions : List BuildOption) (t : Target) : List MesonTask :=
  ((mkTargetTasks mesonPath buildDir ws buildOptions t).getD []).filter
    (fun tk => tk.defn.mode == "run")

/-- TestItemCollection.add at the identifier level: adding an item whose
id is already present replaces it in place, otherwise the item is
appended. -/
def addItem (coll : List String) (id : String) : List String :=
  if id ∈ coll then coll else coll ++ [id]

/-- The identifiers the removal loop of rebuildTestsForFolder deletes:
every item whose id matches no introspected test name. -/
def removedIds (coll : List String) (tests : List TestDescr) : List String :=
  coll.filter (fun id => !(tests.any (fun t => id == t.name)))

/-- tests.ts rebuildTestsForFolder at the identifier level: delete every
stale leaf, then add one leaf per introspected test (a replacement when
the id is already present). -/
def rebuildTestsForFolder (coll : List String) (tests : List TestDescr) : List String :=
  (tests.map (fun t => t.name)).foldl addItem
    (coll.filter (fun id => tests.any (fun t => id == t.name)))

/-- The identifiers genuinely inserted (not replacements) by the add
loop of rebuildTestsForFolder. -/
def insertedIds (coll : List String) (tests : List TestDescr) : List String :=
  ((tests.map (fun t => t.name)).foldl
    (fun p id => if id ∈ p.1 then p else (p.1 ++ [id], p.2 ++ [id]))
    (coll.filter (fun id => tests.any (fun t => id == t.name)), [])).2

/-- A top-level node of the test controller collection in multi-folder
mode: the folder identifier and its leaf children identifiers. -/
structure TopItem where
  id : String
  children : List String
deriving DecidableEq

/-- The outcome of scanning one workspace folder during rebuildTests:
its build directory is missing, its introspection failed, or it
produced a test list. -/
inductive FolderScan where
  | noBuildDir
  | introspectFail
  | ok (projectName : String) (tests : List TestDescr)

/-- A workspace folder as seen by the test reconciler: uri path (path
and fsPath coincide in this model) and its scan outcome. -/
structure WsFolder where
  path : String
  scan : FolderScan

/-- One folder step of the multi-folder branch of rebuildTests: a
missing build directory deletes the folder node; an introspection
failure only surfaces an error message; otherwise the node is created
if absent and its children are reconciled. -/
def processFolder (items : List TopItem) (f : WsFolder) : List TopItem :=
  match f.scan with
  | .noBuildDir => items.filter (fun it => !(it.id == f.path))
  | .introspectFail => items
  | .ok _ tests =>
    if items.any (fun it => it.id == f.path) then
      items.map (fun it =>
        if it.id = f.path then { it with children := rebuildTestsForFolder it.children tests }
        else it)
    else
      items ++ [{ id := f.path, children := rebuildTestsForFolder [] tests }]

/-- The final pruning loop of rebuildTests: drop every top-level node
with zero children, and every node whose id matches no open workspace
folder path. -/
def pruneItems (items : List TopItem) (folders : List WsFolder) : List TopItem :=
  items.filter (fun it => !(it.children.isEmpty) && folders.any (fun f => f.path == it.id))

/-- The multi-folder branch of tests.ts rebuildTests: process each
workspace folder in order, then prune the top-level collection. -/
def rebuildTests (items : List TopItem) (folders : List WsFolder) : List TopItem :=
  pruneItems (folders.foldl processFolder items) folders

/-- The observable result of one external process invocation. -/
structure ExecResult where
  exitCode : Nat
  stdout : String
  stderr : String

/-- The outcome recorded for one test by the run handler. -/
inductive TestOutcome where
  | passed (duration : Option Nat)
  | errored (message : String)
  | failed (message : String) (duration : Nat)
deriving DecidableEq

/-- One entry of the flattened run queue: test id and number of
children (container nodes have children, runnable leaves have none). -/
structure QueueItem where
  id : String
  childCount : Nat
deriving DecidableEq

/-- The classification of one leaf test execution in testRunHandler:
exec resolves only on exit code 0 (passed with duration); in the
rejection handler exit code 125 is errored (build failed, no duration
recorded), anything else is failed with the error output and the
duration. -/
def classifyLeafRun (r : ExecResult) (duration : Nat) : TestOutcome :=
  if r.exitCode = 0 then .passed (some duration)
  else if r.exitCode = 125 then .errored r.stderr
  else .failed r.stderr duration

/-- tests.ts testRunHandler over a flattened queue: container nodes are
recorded as passed without running; leaves are executed and classified
by exit code. The exec results and durations are supplied as functions
of the test id. -/
def testRunHandler (results : String → ExecResult) (durations : String → Nat)
    (queue : List QueueItem) : List (String × TestOutcome) :=
  queue.map (fun item =>
    (item.id,
     if 0 < item.childCount then TestOutcome.passed none
     else classifyLeafRun (results item.id) (durations item.id)))

/-- User-configured debug options (the debugOptions configuration
value), one optional override per configuration field. -/
structure DebugOptions where
  name : Option String := none
  type : Option String := none
  request : Option String := none
  cwd : Option String := none
  env : Option (List (String × String)) := none
  program : Option String := none
  args : Option (List String) := none

/-- A derived debug launch configuration for a test. -/
structure DebugConfig where
  name : String
  type : String
  request : String
  cwd : String
  env : List (String × String)
  program : String
  args : List String
deriving DecidableEq

/-- Object spread with the user options written last: every field the
user configured wins over the synthesized one. -/
def applyUserOverrides (base : DebugConfig) (o : DebugOptions) : DebugConfig :=
  { name := o.name.getD base.name, type := o.type.getD base.type,
    request := o.request.getD base.request, cwd := o.cwd.getD base.cwd,
    env := o.env.getD base.env, program := o.program.getD base.program,
    args := o.args.getD base.args }

/-- The launch configuration prepareTestInFolder derives for one test:
program is the first token of the command vector, arguments are the
remaining tokens, the working directory is the declared workdir or the
build directory, and user debug options override synthesized fields. -/
def debugConfigForTest (buildDir : String) (opts : DebugOptions) (t : TestDescr) : DebugConfig :=
  applyUserOverrides
    { name := "meson-debug-" ++ t.name, type := "cppdbg", request := "launch",
      cwd := t.workdir.getD buildDir, env := t.env, program := t.cmd.headD "",
      args := t.cmd.drop 1 } opts

/-- The observable result of prepareTestInFolder: whether a build was
invoked, which target names were passed to meson compile, and the
derived launch configurations. -/
structure PrepareResult where
  invokedBuild : Bool
  builtTargets : List String
  debugConfigs : List DebugConfig
deriving DecidableEq

/-- tests.ts prepareTestInFolder: restrict the introspected tests to
the selected queue, collect the targets their dependencies name, return
early with nothing when no target matches, otherwise build exactly
those targets and (when the build succeeds) derive one launch
configuration per selected test. -/
def prepareTestInFolder (queue : List String) (buildDir : String)
    (tests : List TestDescr) (targets : List Target) (buildOk : Bool)
    (opts : DebugOptions) : PrepareResult :=
  let relevantTests := tests.filter (fun t => queue.any (fun c => c == t.name))
  let requiredTargets := targets.filter (fun tg =>
    relevantTests.any (fun t => t.depends.any (fun d => d == tg.id)))
  if requiredTargets.length = 0 then ⟨false, [], []⟩
  else if buildOk then
    ⟨true, requiredTargets.map (fun tg => tg.name),
     relevantTests.map (debugConfigForTest buildDir opts)⟩
  else ⟨true, requiredTargets.map (fun tg => tg.name), []⟩

/-- A launch configuration produced by the debug configuration
provider. The synthesized fields are written after the user options in
the object spread, so they never come from the user options; only keys
absent from the synthesized object (env, args here) survive from the
user options. -/
structure ProviderConfig where
  type : String
  name : String
  request : String
  cwd : String
  program : String
  preLaunchTask : String
  env : Option (List (String × String))
  args : Option (List String)
deriving DecidableEq

/-- The configuration the provider synthesizes for one executable
target: program is the first output filename, with a build pre-launch
task named by the resolved target name. -/
def mkProviderConfig (opts : DebugOptions) (buildDir : String) (t : Target)
    (targetName : String) : ProviderConfig :=
  { type := "cppdbg", name := t.name, request := "launch", cwd := buildDir,
    program := t.filename.headD "", preLaunchTask := "Meson: Build " ++ targetName,
    env := opts.env, args := opts.args }

/-- provideDebugConfigurations: one configuration per introspected
target that is an executable and has at least one c or cpp source;
every other target is skipped. A failed target name resolution rejects
the whole call (none). -/
def provideDebugConfigurations (ws : List String) (buildDir : String)
    (buildOptions : List BuildOption) (opts : DebugOptions)
    (targets : List Target) : Option (List ProviderConfig) :=
  mapMO
    (fun t => (getTargetName buildOptions ws t).map (mkProviderConfig opts buildDir t))
    ((targets.filter (fun t => t.type == "executable")).filter
      (fun t => t.target_sources.any (fun s => s.language == "cpp" || s.language == "c")))

/-! ## Helper lemmas -/

theorem pathRelative_append (ws rest : List String) : pathRelative ws (ws ++ rest) = rest := by
  induction ws with
  | nil =>
    cases rest <;> rfl
  | cons a f ih =>
    simp [pathRelative, ih]

theorem slashJoin_append_single (l : List String) (x : String) (h : l ≠ []) :
    slashJoin (l ++ [x]) = slashJoin l ++ "/" ++ x := by
  induction l with
  | nil => exact absurd rfl h
  | cons a as ih =>
    cases as with
    | nil => rfl
    | cons b bs =>
      have hne : b :: bs ≠ [] := by simp
      calc slashJoin ((a :: b :: bs) ++ [x])
          = a ++ "/" ++ slashJoin ((b :: bs) ++ [x]) := rfl
        _ = a ++ "/" ++ (slashJoin (b :: bs) ++ "/" ++ x) := by rw [ih hne]
        _ = slashJoin (a :: b :: bs) ++ "/" ++ x := by
            simp [slashJoin, String.append_assoc]

theorem posixJoin_eq_slashJoin (rel : List String) (name : String) :
    posixJoin rel name = slashJoin (rel ++ [name]) := by
  cases rel with
  | nil => rfl
  | cons a as =>
    have hne : a :: as ≠ [] := by simp
    show slashJoin (a :: as) ++ "/" ++ name = slashJoin ((a :: as) ++ [name])
    rw [slashJoin_append_single _ _ hne]

/-! ## C4: target name resolution -/

/-- C4: when the introspected build option named layout has value
"mirror", getTargetName returns the path of the defining source
directory relative to the workspace root joined to the bare target name
with the forward-slash separator; for any other layout value it returns
meson-out/ followed by the target name regardless of source location. -/
theorem getTargetName_layout (opts : List BuildOption) (ws rest : List String)
    (t : Target) (v : String) (hv : layoutValue opts = some v) :
    (v = "mirror" → pathDirname t.defined_in = ws ++ rest →
      getTargetName opts ws t = some (slashJoin (rest ++ [t.name]))) ∧
    (v ≠ "mirror" → getTargetName opts ws t = some ("meson-out/" ++ t.name)) := by
  constructor
  · intro hm hdir
    subst hm
    simp only [getTargetName, hv, if_true]
    rw [hdir, pathRelative_append, posixJoin_eq_slashJoin]
  · intro hm
    simp only [getTargetName, hv]
    simp [hm]

/-- C4 witness: workspace root /ws, target defined in /ws/sub/dir named
foo resolves to sub/dir/foo under layout mirror, and to meson-out/foo
under layout flat. -/
theorem getTargetName_layout_witness :
    layoutValue [⟨"layout", "mirror"⟩] = some "mirror" ∧
    pathDirname (["ws", "sub", "dir", "meson.build"] : List String) = ["ws"] ++ ["sub", "dir"] ∧
    getTargetName [⟨"layout", "mirror"⟩] ["ws"]
      ⟨"idfoo", "foo", "executable", [], ["ws", "sub", "dir", "meson.build"], []⟩
      = some (slashJoin (["sub", "dir"] ++ ["foo"])) ∧
    ("flat" : String) ≠ "mirror" ∧
    getTargetName [⟨"layout", "flat"⟩] ["ws"]
      ⟨"idfoo", "foo", "executable", [], ["ws", "sub", "dir", "meson.build"], []⟩
      = some ("meson-out/" ++ "foo") := by
  refine ⟨rfl, rfl, ?_, by decide, ?_⟩
  · exact (getTargetName_layout [⟨"layout", "mirror"⟩] ["ws"] ["sub", "dir"]
      ⟨"idfoo", "foo", "executable", [], ["ws", "sub", "dir", "meson.build"], []⟩
      "mirror" rfl).1 rfl rfl
  · exact (getTargetName_layout [⟨"layout", "flat"⟩] ["ws"] []
      ⟨"idfoo", "foo", "executable", [], ["ws", "sub", "dir", "meson.build"], []⟩
      "flat" rfl).2 (by decide)

/-! ## C1: reconciler idempotence -/

theorem mem_addItem (c : List String) (a id : String) :
    id ∈ addItem c a ↔ id ∈ c ∨ id = a := by
  by_cases h : a ∈ c
  · simp only [addItem, if_pos h]
    exact ⟨Or.inl, fun hor => hor.elim (fun hc => hc) (fun he => he ▸ h)⟩
  · simp [addItem, if_neg h]

theorem mem_foldl_addItem (names : List String) (c : List String) (id : String) :
    id ∈ names.foldl addItem c ↔ id ∈ c ∨ id ∈ names := by
  induction names generalizing c with
  | nil => simp
  | cons a ns ih =>
    rw [List.foldl_cons, ih, mem_addItem]
    simp [or_assoc]

theorem foldl_addItem_of_mem (names : List String) (c : List String)
    (h : ∀ id ∈ names, id ∈ c) : names.foldl addItem c = c := by
  induction names with
  | nil => rfl
  | cons a ns ih =>
    rw [List.foldl_cons, addItem, if_pos (h a (List.mem_cons_self a ns))]
    exact ih (fun id hid => h id (List.mem_cons_of_mem a hid))

theorem foldl_insert_pair_of_mem (names : List String) (c acc : List String)
    (h : ∀ id ∈ names, id ∈ c) :
    names.foldl (fun p id => if id ∈ p.1 then p else (p.1 ++ [id], p.2 ++ [id])) (c, acc)
      = (c, acc) := by
  induction names with
  | nil => rfl
  | cons a ns ih =>
    rw [List.foldl_cons]
    simp only [if_pos (h a (List.mem_cons_self a ns))]
    exact ih (fun id hid => h id (List.mem_cons_of_mem a hid))

theorem mem_rebuildTestsForFolder_matches (coll : List String) (tests : List TestDescr)
    (id : String) (hid : id ∈ rebuildTestsForFolder coll tests) :
    tests.any (fun t => id == t.name) = true := by
  rw [rebuildTestsForFolder, mem_foldl_addItem] at hid
  rcases hid with hk | hn
  · exact (List.mem_filter.mp hk).2
  · rcases List.mem_map.mp hn with ⟨t, ht, hname⟩
    exact List.any_eq_true.mpr ⟨t, ht, by simp [hname.symm]⟩

/-- C1: reconciliation is idempotent: after one run of
rebuildTestsForFolder with a fixed test list, a second run with the
same list deletes no item, inserts no item (every add is a
replacement), and leaves the collection unchanged. -/
theorem rebuildTestsForFolder_idempotent (coll : List String) (tests : List TestDescr) :
    removedIds (rebuildTestsForFolder coll tests) tests = [] ∧
    insertedIds (rebuildTestsForFolder coll tests) tests = [] ∧
    rebuildTestsForFolder (rebuildTestsForFolder coll tests) tests
      = rebuildTestsForFolder coll tests := by
  have hmatch := mem_rebuildTestsForFolder_matches coll tests
  have hkeep : (rebuildTestsForFolder coll tests).filter
      (fun id => tests.any (fun t => id == t.name)) = rebuildTestsForFolder coll tests :=
    List.filter_eq_self.mpr (fun id hid => hmatch id hid)
  have hnames : ∀ id ∈ tests.map (fun t => t.name), id ∈ rebuildTestsForFolder coll tests := by
    intro id hid
    rw [rebuildTestsForFolder, mem_foldl_addItem]
    exact Or.inr hid
  refine ⟨?_, ?_, ?_⟩
  · rw [removedIds]
    refine List.filter_eq_nil_iff.mpr (fun id hid => ?_)
    simp [hmatch id hid]
  · rw [insertedIds, hkeep, foldl_insert_pair_of_mem _ _ _ hnames]
  · conv_lhs => rw [rebuildTestsForFolder]
    rw [hkeep]
    exact foldl_addItem_of_mem _ _ hnames

/-! ## C3: exit code classification -/

/-- C3: for every leaf test in the run queue, exit code 0 records
passed with the duration, exit code 125 records errored with the error
output, and any other non-zero exit code records failed with the error
output and the duration. -/
theorem testRunHandler_classification (results : String → ExecResult)
    (durations : String → Nat) (queue : List QueueItem) (item : QueueItem)
    (hmem : item ∈ queue) (hleaf : item.childCount = 0) :
    ((results item.id).exitCode = 0 →
      (item.id, TestOutcome.passed (some (durations item.id)))
        ∈ testRunHandler results durations queue) ∧
    ((results item.id).exitCode = 125 →
      (item.id, TestOutcome.errored (results item.id).stderr)
        ∈ testRunHandler results durations queue) ∧
    ((results item.id).exitCode ≠ 0 → (results item.id).exitCode ≠ 125 →
      (item.id, TestOutcome.failed (results item.id).stderr (durations item.id))
        ∈ testRunHandler results durations queue) := by
  refine ⟨fun h0 => ?_, fun h125 => ?_, fun h0 h125 => ?_⟩ <;>
  · refine List.mem_map.mpr ⟨item, hmem, ?_⟩
    simp [hleaf, classifyLeafRun, *]

/-- C3 witness: a leaf whose process exits with code 2 is recorded as
failed with the captured error output and the duration. -/
theorem testRunHandler_classification_witness :
    (⟨"t", 0⟩ : QueueItem) ∈ [(⟨"t", 0⟩ : QueueItem)] ∧
    (⟨"t", 0⟩ : QueueItem).childCount = 0 ∧
    ("t", TestOutcome.failed "err" 7)
      ∈ testRunHandler (fun _ => ⟨2, "out", "err"⟩) (fun _ => 7) [⟨"t", 0⟩] := by
  refine ⟨by simp, rfl, ?_⟩
  exact (testRunHandler_classification (fun _ => ⟨2, "out", "err"⟩) (fun _ => 7)
    [⟨"t", 0⟩] ⟨"t", 0⟩ (by simp) rfl).2.2 (by decide) (by decide)

/-! ## C7: multi-folder pruning -/

/-- C7: after the multi-folder reconciliation pass, every remaining
top-level node has at least one child and an identifier equal to the
uri path of some currently open workspace folder. -/
theorem rebuildTests_pruned (items : List TopItem) (folders : List WsFolder)
    (it : TopItem) (hmem : it ∈ rebuildTests items folders) :
    it.children ≠ [] ∧ ∃ f ∈ folders, f.path = it.id := by
  rw [rebuildTests, pruneItems] at hmem
  have h2 := (List.mem_filter.mp hmem).2
  simp only [Bool.and_eq_true, Bool.not_eq_true', List.any_eq_true, beq_iff_eq] at h2
  obtain ⟨hempty, f, hf, hpath⟩ := h2
  refine ⟨fun hc => ?_, ⟨f, hf, hpath⟩⟩
  rw [hc] at hempty
  simp at hempty

/-- C7 witness: with two folders, one scanned with one test and one
with a missing build directory, the surviving node has a child and is
identified by an open folder path. -/
theorem rebuildTests_pruned_witness :
    (⟨"/a", ["ta"]⟩ : TopItem) ∈ rebuildTests []
      [⟨"/a", .ok "pa" [⟨"ta", [], [], none, []⟩]⟩, ⟨"/b", .noBuildDir⟩] ∧
    ((⟨"/a", ["ta"]⟩ : TopItem).children ≠ [] ∧
      ∃ f ∈ [(⟨"/a", .ok "pa" [⟨"ta", [], [], none, []⟩]⟩ : WsFolder), ⟨"/b", .noBuildDir⟩],
        f.path = (⟨"/a", ["ta"]⟩ : TopItem).id) := by
  refine ⟨by decide, ?_⟩
  exact rebuildTests_pruned [] _ _ (by decide)

/-! ## C2: debug configuration derivation -/

/-- C2 counterexample: for the test descriptor with command vector
env, --, /bin/prog, --flag, the derived configuration has program env
and arguments --, /bin/prog, --flag, not program /bin/prog with
arguments --flag as the claim states. -/
theorem debugConfigForTest_cmd_counterexample :
    (debugConfigForTest "/ws/build" {}
      ⟨"t1", ["env", "--", "/bin/prog", "--flag"], [("X", "1")], none, []⟩).program = "env" ∧
    (debugConfigForTest "/ws/build" {}
      ⟨"t1", ["env", "--", "/bin/prog", "--flag"], [("X", "1")], none, []⟩).args
      = ["--", "/bin/prog", "--flag"] ∧
    ¬ ((debugConfigForTest "/ws/build" {}
        ⟨"t1", ["env", "--", "/bin/prog", "--flag"], [("X", "1")], none, []⟩).program = "/bin/prog" ∧
       (debugConfigForTest "/ws/build" {}
        ⟨"t1", ["env", "--", "/bin/prog", "--flag"], [("X", "1")], none, []⟩).args = ["--flag"]) := by
  decide

/-- C2 (amended): for the test descriptor with command vector env, --,
/bin/prog, --flag, environment X=1 and no declared workdir, the derived
configuration has program env (the first command token), arguments --,
/bin/prog, --flag (the remaining tokens), working directory the build
directory, and environment X=1, each merged under the user configured
debug options with the user options taking precedence. -/
theorem debugConfigForTest_env_wrapped (buildDir : String) (opts : DebugOptions)
    (t : TestDescr) (hcmd : t.cmd = ["env", "--", "/bin/prog", "--flag"])
    (henv : t.env = [("X", "1")]) (hwd : t.workdir = none) :
    (debugConfigForTest buildDir opts t).program = opts.program.getD "env" ∧
    (debugConfigForTest buildDir opts t).args = opts.args.getD ["--", "/bin/prog", "--flag"] ∧
    (debugConfigForTest buildDir opts t).cwd = opts.cwd.getD buildDir ∧
    (debugConfigForTest buildDir opts t).env = opts.env.getD [("X", "1")] := by
  simp [debugConfigForTest, applyUserOverrides, hcmd, henv, hwd]

/-- C2 witness: the amended statement evaluated for a concrete test
descriptor and a user override of the working directory. -/
theorem debugConfigForTest_env_wrapped_witness :
    (⟨"t1", ["env", "--", "/bin/prog", "--flag"], [("X", "1")], none, []⟩ : TestDescr).cmd
      = ["env", "--", "/bin/prog", "--flag"] ∧
    (⟨"t1", ["env", "--", "/bin/prog", "--flag"], [("X", "1")], none, []⟩ : TestDescr).env
      = [("X", "1")] ∧
    (⟨"t1", ["env", "--", "/bin/prog", "--flag"], [("X", "1")], none, []⟩ : TestDescr).workdir
      = none ∧
    ((debugConfigForTest "/ws/build" { cwd := some "/custom" }
        ⟨"t1", ["env", "--", "/bin/prog", "--flag"], [("X", "1")], none, []⟩).program
      = (Option.none).getD "env" ∧
     (debugConfigForTest "/ws/build" { cwd := some "/custom" }
        ⟨"t1", ["env", "--", "/bin/prog", "--flag"], [("X", "1")], none, []⟩).args
      = (Option.none).getD ["--", "/bin/prog", "--flag"] ∧
     (debugConfigForTest "/ws/build" { cwd := some "/custom" }
        ⟨"t1", ["env", "--", "/bin/prog", "--flag"], [("X", "1")], none, []⟩).cwd
      = (some "/custom").getD "/ws/build" ∧
     (debugConfigForTest "/ws/build" { cwd := some "/custom" }
        ⟨"t1", ["env", "--", "/bin/prog", "--flag"], [("X", "1")], none, []⟩).env
      = (Option.none).getD [("X", "1")]) := by
  refine ⟨rfl, rfl, rfl, ?_⟩
  exact debugConfigForTest_env_wrapped "/ws/build" { cwd := some "/custom" }
    ⟨"t1", ["env", "--", "/bin/prog", "--flag"], [("X", "1")], none, []⟩ rfl rfl rfl

/-! ## C9: no matching target, no build, no launch -/

/-- C9: when no introspected target is named by the dependency
identifiers of the selected tests, prepareTestInFolder returns with no
build invoked and no debug configuration, even when tests were
selected. -/
theorem prepareTestInFolder_noTargets (queue : List String) (buildDir : String)
    (tests : List TestDescr) (targets : List Target) (buildOk : Bool) (opts : DebugOptions)
    (h : targets.filter (fun tg =>
        (tests.filter (fun t => queue.any (fun c => c == t.name))).any
          (fun t => t.depends.any (fun d => d == tg.id))) = []) :
    prepareTestInFolder queue buildDir tests targets buildOk opts = ⟨false, [], []⟩ := by
  simp only [prepareTestInFolder]
  rw [h]
  simp

/-- C9 witness: a selected test depending on target id x, with the
introspected target set naming only id y, produces no build and no
launch configuration. -/
theorem prepareTestInFolder_noTargets_witness :
    ([⟨"idy", "y", "executable", [], [], []⟩] : List Target).filter (fun tg =>
        (([⟨"t1", ["p"], [], none, ["x"]⟩] : List TestDescr).filter
          (fun t => ["t1"].any (fun c => c == t.name))).any
          (fun t => t.depends.any (fun d => d == tg.id))) = [] ∧
    prepareTestInFolder ["t1"] "/bd" [⟨"t1", ["p"], [], none, ["x"]⟩]
      [⟨"idy", "y", "executable", [], [], []⟩] true {} = ⟨false, [], []⟩ := by
  refine ⟨by decide, ?_⟩
  exact prepareTestInFolder_noTargets ["t1"] "/bd" [⟨"t1", ["p"], [], none, ["x"]⟩]
    [⟨"idy", "y", "executable", [], [], []⟩] true {} (by decide)

/-! ## Task synthesis machinery -/

theorem mapMO_eq_map {α β : Type} (p : α → Option β) (g : α → β) (l : List α)
    (h : ∀ a ∈ l, p a = some (g a)) : mapMO p l = some (l.map g) := by
  induction l with
  | nil => rfl
  | cons a as ih =>
    have ha := h a (List.mem_cons_self a as)
    have hrest := ih (fun x hx => h x (List.mem_cons_of_mem a hx))
    simp [mapMO, ha, hrest]

theorem getTargetName_eq_some (opts : List BuildOption) (ws : List String) (t : Target)
    (v : String) (hv : layoutValue opts = some v) :
    getTargetName opts ws t = some (if v = "mirror"
      then posixJoin (pathRelative ws (pathDirname t.defined_in)) t.name
      else "meson-out/" ++ t.name) := by
  simp only [getTargetName, hv]
  split <;> simp [*]

theorem mkTargetTasks_eq_some (mesonPath buildDir : String) (ws : List String)
    (opts : List BuildOption) (t : Target) (v : String) (hv : layoutValue opts = some v) :
    mkTargetTasks mesonPath buildDir ws opts t
      = some ((mkTargetTasks mesonPath buildDir ws opts t).getD []) := by
  rw [mkTargetTasks, getTargetName_eq_some opts ws t v hv]
  rfl

theorem mem_mkTargetTasks_target (mesonPath buildDir : String) (ws : List String)
    (opts : List BuildOption) (t : Target) (n : String) (tk : MesonTask)
    (hn : getTargetName opts ws t = some n)
    (htk : tk ∈ (mkTargetTasks mesonPath buildDir ws opts t).getD []) :
    tk.defn.target = some n := by
  rw [mkTargetTasks, hn] at htk
  simp only [Option.map_some', Option.getD_some] at htk
  split at htk
  · split at htk
    · simp only [List.mem_cons, List.not_mem_nil, or_false] at htk
      rcases htk with h | h <;> rw [h] <;> rfl
    · simp only [List.mem_cons, List.mem_map] at htk
      rcases htk with h | ⟨f, _, h⟩
      · rw [h]; rfl
      · rw [← h]; rfl
  · simp only [List.mem_singleton] at htk
    rw [htk]; rfl

theorem filter_build_mkTargetTasks (mesonPath buildDir : String) (ws : List String)
    (opts : List BuildOption) (t : Target) (v : String) (hv : layoutValue opts = some v) :
    (((mkTargetTasks mesonPath buildDir ws opts t).getD []).filter isTargetBuildTask).map
      (fun tk => tk.defn.target) = [getTargetName opts ws t] := by
  rw [mkTargetTasks, getTargetName_eq_some opts ws t v hv]
  simp only [Option.map_some', Option.getD_some]
  split
  · split
    · simp [isTargetBuildTask, targetBuildTask, targetRunTaskSingle]
    · simp [isTargetBuildTask, targetBuildTask, targetRunTaskMulti, List.filter_map]
  · simp [isTargetBuildTask, targetBuildTask]

theorem getMesonTasksForDir_eq (mesonPath buildDir : String) (ws : List String)
    (d : IntrospectionData) (v : String) (hv : layoutValue d.buildOptions = some v) :
    getMesonTasksForDir mesonPath buildDir ws (some d) =
      [defaultBuildTask mesonPath buildDir, defaultTestTask mesonPath buildDir,
       defaultBenchmarkTask mesonPath buildDir, defaultReconfigureTask mesonPath buildDir ws,
       defaultCleanTask mesonPath buildDir]
      ++ (d.targets.map (fun t => (mkTargetTasks mesonPath buildDir ws d.buildOptions t).getD [])).flatten
      ++ d.tests.map (testTask mesonPath buildDir)
      ++ d.benchmarks.map (benchmarkTask mesonPath buildDir) := by
  simp only [getMesonTasksForDir]
  rw [mapMO_eq_map _ (fun t => (mkTargetTasks mesonPath buildDir ws d.buildOptions t).getD [])
      d.targets (fun t _ => mkTargetTasks_eq_some mesonPath buildDir ws d.buildOptions t v hv)]

theorem flatten_filter_build (mesonPath buildDir : String) (ws : List String)
    (opts : List BuildOption) (v : String) (hv : layoutValue opts = some v)
    (ts : List Target) :
    (((ts.map (fun t => (mkTargetTasks mesonPath buildDir ws opts t).getD [])).flatten).filter
        isTargetBuildTask).map (fun tk => tk.defn.target)
      = ts.map (fun t => getTargetName opts ws t) := by
  induction ts with
  | nil => rfl
  | cons t ts ih =>
    simp only [List.map_cons, List.flatten_cons, List.filter_append, List.map_append, ih]
    rw [filter_build_mkTargetTasks mesonPath buildDir ws opts t v hv]
    rfl

theorem flatten_filter_none_eq_nil (mesonPath buildDir : String) (ws : List String)
    (opts : List BuildOption) (v : String) (hv : layoutValue opts = some v)
    (ts : List Target) :
    ((ts.map (fun t => (mkTargetTasks mesonPath buildDir ws opts t).getD [])).flatten).filter
        (fun tk => tk.defn.target.isNone) = [] := by
  refine List.filter_eq_nil_iff.mpr (fun tk htk => ?_)
  rcases List.mem_flatten.mp htk with ⟨l, hl, htkl⟩
  rcases List.mem_map.mp hl with ⟨t, _, hlt⟩
  have hn : getTargetName opts ws t = some (if v = "mirror"
      then posixJoin (pathRelative ws (pathDirname t.defined_in)) t.name
      else "meson-out/" ++ t.name) := getTargetName_eq_some opts ws t v hv
  have := mem_mkTargetTasks_target mesonPath buildDir ws opts t _ tk hn (hlt ▸ htkl)
  simp [this]

theorem filter_none_testTasks (mesonPath buildDir : String) (tests : List TestDescr) :
    (tests.map (testTask mesonPath buildDir)).filter (fun tk => tk.defn.target.isNone) = [] := by
  refine List.filter_eq_nil_iff.mpr (fun tk htk => ?_)
  rcases List.mem_map.mp htk with ⟨t, _, h⟩
  rw [← h]
  simp [testTask]

theorem filter_none_benchmarkTasks (mesonPath buildDir : String) (bs : List TestDescr) :
    (bs.map (benchmarkTask mesonPath buildDir)).filter (fun tk => tk.defn.target.isNone) = [] := by
  refine List.filter_eq_nil_iff.mpr (fun tk htk => ?_)
  rcases List.mem_map.mp htk with ⟨t, _, h⟩
  rw [← h]
  simp [benchmarkTask]

theorem filter_build_testTasks (mesonPath buildDir : String) (tests : List TestDescr) :
    (tests.map (testTask mesonPath buildDir)).filter isTargetBuildTask = [] := by
  refine List.filter_eq_nil_iff.mpr (fun tk htk => ?_)
  rcases List.mem_map.mp htk with ⟨t, _, h⟩
  rw [← h]
  simp [testTask, isTargetBuildTask]

theorem filter_build_benchmarkTasks (mesonPath buildDir : String) (bs : List TestDescr) :
    (bs.map (benchmarkTask mesonPath buildDir)).filter isTargetBuildTask = [] := by
  refine List.filter_eq_nil_iff.mpr (fun tk htk => ?_)
  rcases List.mem_map.mp htk with ⟨t, _, h⟩
  rw [← h]
  simp [benchmarkTask, isTargetBuildTask]

/-! ## C5: task synthesis shape -/

/-- C5: for an introspection snapshot with target set T, the task list
restricted to target-less tasks is exactly the five fixed tasks
(build-all compile, test-all test, benchmark-all test --benchmark
--verbose, reconfigure setup --reconfigure running in the workspace
root, clean compile --clean), and the target-tied build tasks are
exactly one per element of T, identified by its resolved name. -/
theorem getMesonTasksForDir_tasks (mesonPath buildDir : String) (ws : List String)
    (d : IntrospectionData) (v : String) (hv : layoutValue d.buildOptions = some v) :
    ((getMesonTasksForDir mesonPath buildDir ws (some d)).filter
        (fun tk => tk.defn.target.isNone))
      = [defaultBuildTask mesonPath buildDir, defaultTestTask mesonPath buildDir,
         defaultBenchmarkTask mesonPath buildDir, defaultReconfigureTask mesonPath buildDir ws,
         defaultCleanTask mesonPath buildDir] ∧
    ((getMesonTasksForDir mesonPath buildDir ws (some d)).filter isTargetBuildTask).map
        (fun tk => tk.defn.target)
      = d.targets.map (fun t => getTargetName d.buildOptions ws t) ∧
    (defaultBuildTask mesonPath buildDir).execution.args = ["compile"] ∧
    (defaultTestTask mesonPath buildDir).execution.args = ["test"] ∧
    (defaultBenchmarkTask mesonPath buildDir).execution.args
      = ["test", "--benchmark", "--verbose"] ∧
    (defaultReconfigureTask mesonPath buildDir ws).execution.args
      = ["setup", "--reconfigure", buildDir] ∧
    (defaultReconfigureTask mesonPath buildDir ws).execution.cwd = some (fsPathOf ws) ∧
    (defaultCleanTask mesonPath buildDir).execution.args = ["compile", "--clean"] := by
  rw [getMesonTasksForDir_eq mesonPath buildDir ws d v hv]
  refine ⟨?_, ?_, rfl, rfl, rfl, rfl, rfl, rfl⟩
  · simp only [List.filter_append]
    rw [flatten_filter_none_eq_nil mesonPath buildDir ws d.buildOptions v hv,
        filter_none_testTasks, filter_none_benchmarkTasks]
    simp [defaultBuildTask, defaultTestTask, defaultBenchmarkTask,
          defaultReconfigureTask, defaultCleanTask]
  · simp only [List.filter_append, List.map_append]
    rw [flatten_filter_build mesonPath buildDir ws d.buildOptions v hv,
        filter_build_testTasks, filter_build_benchmarkTasks]
    have hfixed : ([defaultBuildTask mesonPath buildDir, defaultTestTask mesonPath buildDir,
        defaultBenchmarkTask mesonPath buildDir, defaultReconfigureTask mesonPath buildDir ws,
        defaultCleanTask mesonPath buildDir] : List MesonTask).filter isTargetBuildTask = [] := by
      simp [isTargetBuildTask, defaultBuildTask, defaultTestTask, defaultBenchmarkTask,
            defaultReconfigureTask, defaultCleanTask]
    rw [hfixed]
    simp

/-- C5 witness: a snapshot with one target, one test and one benchmark
under layout flat yields the five fixed tasks as the target-less tasks
and one build task identified by meson-out/foo. -/
theorem getMesonTasksForDir_tasks_witness :
    layoutValue [⟨"layout", "flat"⟩] = some "flat" ∧
    ((getMesonTasksForDir "meson" "/bd" ["ws"]
        (some ⟨[⟨"id1", "foo", "executable", ["/bd/foo"], ["ws", "meson.build"], []⟩],
               [⟨"t1", ["x"], [], none, []⟩], [⟨"b1", ["y"], [], none, []⟩],
               [⟨"layout", "flat"⟩]⟩)).filter
        (fun tk => tk.defn.target.isNone))
      = [defaultBuildTask "meson" "/bd", defaultTestTask "meson" "/bd",
         defaultBenchmarkTask "meson" "/bd", defaultReconfigureTask "meson" "/bd" ["ws"],
         defaultCleanTask "meson" "/bd"] ∧
    ((getMesonTasksForDir "meson" "/bd" ["ws"]
        (some ⟨[⟨"id1", "foo", "executable", ["/bd/foo"], ["ws", "meson.build"], []⟩],
               [⟨"t1", ["x"], [], none, []⟩], [⟨"b1", ["y"], [], none, []⟩],
               [⟨"layout", "flat"⟩]⟩)).filter isTargetBuildTask).map
        (fun tk => tk.defn.target)
      = ([⟨"id1", "foo", "executable", ["/bd/foo"], ["ws", "meson.build"], []⟩] : List Target).map
          (fun t => getTargetName [⟨"layout", "flat"⟩] ["ws"] t) := by
  refine ⟨rfl, ?_, ?_⟩
  · exact (getMesonTasksForDir_tasks "meson" "/bd" ["ws"]
      ⟨[⟨"id1", "foo", "executable", ["/bd/foo"], ["ws", "meson.build"], []⟩],
       [⟨"t1", ["x"], [], none, []⟩], [⟨"b1", ["y"], [], none, []⟩],
       [⟨"layout", "flat"⟩]⟩ "flat" rfl).1
  · exact (getMesonTasksForDir_tasks "meson" "/bd" ["ws"]
      ⟨[⟨"id1", "foo", "executable", ["/bd/foo"], ["ws", "meson.build"], []⟩],
       [⟨"t1", ["x"], [], none, []⟩], [⟨"b1", ["y"], [], none, []⟩],
       [⟨"layout", "flat"⟩]⟩ "flat" rfl).2.1

/-! ## C6: run task multiplicity -/

/-- C6: for an executable target, one output file yields exactly one
run task with no filename in its identity; several output files yield
exactly one run task per file, each carrying that file in its identity,
with distinct identities when the files are distinct. -/
theorem runTasksOf_spec (mesonPath buildDir : String) (ws : List String)
    (opts : List BuildOption) (t : Target) (v : String)
    (hv : layoutValue opts = some v) (he : t.type = "executable") :
    (t.filename.length = 1 →
      (runTasksOf mesonPath buildDir ws opts t).map (fun tk => tk.defn.filename) = [none]) ∧
    (1 < t.filename.length →
      (runTasksOf mesonPath buildDir ws opts t).map (fun tk => tk.defn.filename)
        = t.filename.map some ∧
      (t.filename.Nodup →
        ((runTasksOf mesonPath buildDir ws opts t).map (fun tk => tk.defn)).Nodup)) := by
  obtain ⟨n, hn⟩ : ∃ n, getTargetName opts ws t = some n :=
    ⟨_, getTargetName_eq_some opts ws t v hv⟩
  constructor
  · intro h1
    rw [runTasksOf, mkTargetTasks, hn]
    simp only [Option.map_some', Option.getD_some, if_pos he, if_pos h1]
    simp [targetBuildTask, targetRunTaskSingle]
  · intro hlt
    have h1 : ¬ t.filename.length = 1 := by omega
    rw [runTasksOf, mkTargetTasks, hn]
    simp only [Option.map_some', Option.getD_some, if_pos he, if_neg h1]
    have hbf : ((targetBuildTask mesonPath buildDir n).defn.mode == "run") = false := rfl
    have hall : ∀ tk ∈ t.filename.map (targetRunTaskMulti ws n),
        (tk.defn.mode == "run") = true := by
      intro tk htk
      rcases List.mem_map.mp htk with ⟨f, _, h⟩
      rw [← h]
      simp [targetRunTaskMulti]
    have hstep : (targetBuildTask mesonPath buildDir n ::
        t.filename.map (targetRunTaskMulti ws n)).filter (fun tk => tk.defn.mode == "run")
          = t.filename.map (targetRunTaskMulti ws n) := by
      simp [List.filter_cons, hbf, List.filter_eq_self.mpr hall]
    rw [hstep]
    constructor
    · simp [List.map_map, targetRunTaskMulti, Function.comp]
    · intro hnd
      have hmap : (t.filename.map (targetRunTaskMulti ws n)).map (fun tk => tk.defn)
          = t.filename.map (fun f => (⟨"meson", "run", some n, some f⟩ : TaskDef)) := by
        simp [List.map_map, targetRunTaskMulti, Function.comp]
      rw [hmap]
      have hinj : Function.Injective (fun f => (⟨"meson", "run", some n, some f⟩ : TaskDef)) := by
        intro a b hab
        simpa using hab
      exact hnd.map hinj

/-- C6 witness: one run task with no filename qualifier for a
single-output executable; two distinctly qualified run tasks for a
two-output executable. -/
theorem runTasksOf_spec_witness :
    layoutValue [⟨"layout", "flat"⟩] = some "flat" ∧
    (⟨"i", "a", "executable", ["/f"], ["ws", "meson.build"], []⟩ : Target).type
      = "executable" ∧
    (⟨"i", "a", "executable", ["/f"], ["ws", "meson.build"], []⟩ : Target).filename.length = 1 ∧
    (runTasksOf "meson" "/bd" ["ws"] [⟨"layout", "flat"⟩]
      ⟨"i", "a", "executable", ["/f"], ["ws", "meson.build"], []⟩).map
        (fun tk => tk.defn.filename) = [none] ∧
    1 < (⟨"i", "a", "executable", ["/f1", "/f2"], ["ws", "meson.build"], []⟩ : Target).filename.length ∧
    (runTasksOf "meson" "/bd" ["ws"] [⟨"layout", "flat"⟩]
      ⟨"i", "a", "executable", ["/f1", "/f2"], ["ws", "meson.build"], []⟩).map
        (fun tk => tk.defn.filename)
      = (⟨"i", "a", "executable", ["/f1", "/f2"], ["ws", "meson.build"], []⟩ : Target).filename.map some ∧
    ((runTasksOf "meson" "/bd" ["ws"] [⟨"layout", "flat"⟩]
      ⟨"i", "a", "executable", ["/f1", "/f2"], ["ws", "meson.build"], []⟩).map
        (fun tk => tk.defn)).Nodup := by
  refine ⟨rfl, rfl, rfl, ?_, by decide, ?_, ?_⟩
  · exact (runTasksOf_spec "meson" "/bd" ["ws"] [⟨"layout", "flat"⟩]
      ⟨"i", "a", "executable", ["/f"], ["ws", "meson.build"], []⟩ "flat" rfl rfl).1 rfl
  · exact ((runTasksOf_spec "meson" "/bd" ["ws"] [⟨"layout", "flat"⟩]
      ⟨"i", "a", "executable", ["/f1", "/f2"], ["ws", "meson.build"], []⟩ "flat" rfl rfl).2
      (by decide)).1
  · exact ((runTasksOf_spec "meson" "/bd" ["ws"] [⟨"layout", "flat"⟩]
      ⟨"i", "a", "executable", ["/f1", "/f2"], ["ws", "meson.build"], []⟩ "flat" rfl rfl).2
      (by decide)).2 (by decide)

/-! ## C8: failure isolation -/

/-- C8: a directory whose introspection fails contributes the empty
task list, and dropping it from the aggregation leaves the sibling
folders' concatenated tasks unchanged. -/
theorem getMesonTasks_isolated (mesonPath : String) (pre post : List FolderInput)
    (f : FolderInput) (hex : f.buildDirExists = true) (hf : f.data = none) :
    getMesonTasksForDir mesonPath f.buildDir f.ws f.data = [] ∧
    getMesonTasks mesonPath (pre ++ f :: post)
      = getMesonTasks mesonPath pre ++ getMesonTasks mesonPath post := by
  have h1 : getMesonTasksForDir mesonPath f.buildDir f.ws f.data = [] := by
    rw [hf]
    rfl
  refine ⟨h1, ?_⟩
  rw [getMesonTasks, getMesonTasks, getMesonTasks, List.filter_append, List.filter_cons]
  simp only [hex, if_true, List.map_append, List.map_cons, List.flatten_append,
    List.flatten_cons, h1, List.nil_append]

/-- C8 witness: a failing middle folder contributes nothing and the
sibling folder tasks are aggregated unchanged. -/
theorem getMesonTasks_isolated_witness :
    (⟨["b"], true, "/b/build", none⟩ : FolderInput).buildDirExists = true ∧
    (⟨["b"], true, "/b/build", none⟩ : FolderInput).data = none ∧
    getMesonTasksForDir "meson" (⟨["b"], true, "/b/build", none⟩ : FolderInput).buildDir
      (⟨["b"], true, "/b/build", none⟩ : FolderInput).ws
      (⟨["b"], true, "/b/build", none⟩ : FolderInput).data = [] ∧
    getMesonTasks "meson"
        ([⟨["a"], true, "/a/build", some ⟨[], [], [], [⟨"layout", "flat"⟩]⟩⟩]
          ++ (⟨["b"], true, "/b/build", none⟩ : FolderInput) :: [])
      = getMesonTasks "meson" [⟨["a"], true, "/a/build", some ⟨[], [], [], [⟨"layout", "flat"⟩]⟩⟩]
        ++ getMesonTasks "meson" [] := by
  refine ⟨rfl, rfl, ?_, ?_⟩
  · exact (getMesonTasks_isolated "meson"
      [⟨["a"], true, "/a/build", some ⟨[], [], [], [⟨"layout", "flat"⟩]⟩⟩] []
      ⟨["b"], true, "/b/build", none⟩ rfl rfl).1
  · exact (getMesonTasks_isolated "meson"
      [⟨["a"], true, "/a/build", some ⟨[], [], [], [⟨"layout", "flat"⟩]⟩⟩] []
      ⟨["b"], true, "/b/build", none⟩ rfl rfl).2

/-! ## C10: debug configuration provider -/

/-- C10: the provider yields exactly one launch configuration per
introspected target that is an executable with at least one c or cpp
source, with program equal to the target's first output filename and
the synthesized type, request and working directory fixed regardless of
the user debug options; every other target yields no configuration. -/
theorem provideDebugConfigurations_spec (ws : List String) (buildDir : String)
    (buildOptions : List BuildOption) (opts : DebugOptions) (targets : List Target)
    (v : String) (hv : layoutValue buildOptions = some v) :
    ∃ cfgs, provideDebugConfigurations ws buildDir buildOptions opts targets = some cfgs ∧
      cfgs.length = ((targets.filter (fun t => t.type == "executable")).filter
        (fun t => t.target_sources.any (fun s => s.language == "cpp" || s.language == "c"))).length ∧
      cfgs.map (fun c => c.program)
        = ((targets.filter (fun t => t.type == "executable")).filter
            (fun t => t.target_sources.any (fun s => s.language == "cpp" || s.language == "c"))).map
            (fun t => t.filename.headD "") ∧
      ∀ c ∈ cfgs, c.type = "cppdbg" ∧ c.request = "launch" ∧ c.cwd = buildDir := by
  refine ⟨((targets.filter (fun t => t.type == "executable")).filter
      (fun t => t.target_sources.any (fun s => s.language == "cpp" || s.language == "c"))).map
      (fun t => mkProviderConfig opts buildDir t ((getTargetName buildOptions ws t).getD "")),
    ?_, ?_, ?_, ?_⟩
  · exact mapMO_eq_map _ _ _ (fun t _ => by
      rw [getTargetName_eq_some buildOptions ws t v hv]
      rfl)
  · simp
  · simp [List.map_map, mkProviderConfig, Function.comp]
  · intro c hc
    rcases List.mem_map.mp hc with ⟨t, _, h⟩
    rw [← h]
    exact ⟨rfl, rfl, rfl⟩

/-- C10 witness: among an executable with a c source, a library, and an
executable with only a rust source, exactly the first target yields a
configuration, with program its first output file, independent of a
user program override. -/
theorem provideDebugConfigurations_spec_witness :
    layoutValue [⟨"layout", "flat"⟩] = some "flat" ∧
    ∃ cfgs, provideDebugConfigurations ["ws"] "/bd" [⟨"layout", "flat"⟩]
        { program := some "/override" }
        [⟨"i1", "app", "executable", ["/out/app"], ["ws", "meson.build"], [⟨"c"⟩]⟩,
         ⟨"i2", "lib", "library", ["/out/lib.a"], ["ws", "meson.build"], [⟨"c"⟩]⟩,
         ⟨"i3", "rs", "executable", ["/out/rs"], ["ws", "meson.build"], [⟨"rust"⟩]⟩]
        = some cfgs ∧
      cfgs.length = ((([⟨"i1", "app", "executable", ["/out/app"], ["ws", "meson.build"], [⟨"c"⟩]⟩,
         ⟨"i2", "lib", "library", ["/out/lib.a"], ["ws", "meson.build"], [⟨"c"⟩]⟩,
         ⟨"i3", "rs", "executable", ["/out/rs"], ["ws", "meson.build"], [⟨"rust"⟩]⟩] : List Target).filter
          (fun t => t.type == "executable")).filter
          (fun t => t.target_sources.any (fun s => s.language == "cpp" || s.language == "c"))).length ∧
      cfgs.map (fun c => c.program)
        = ((([⟨"i1", "app", "executable", ["/out/app"], ["ws", "meson.build"], [⟨"c"⟩]⟩,
         ⟨"i2", "lib", "library", ["/out/lib.a"], ["ws", "meson.build"], [⟨"c"⟩]⟩,
         ⟨"i3", "rs", "executable", ["/out/rs"], ["ws", "meson.build"], [⟨"rust"⟩]⟩] : List Target).filter
          (fun t => t.type == "executable")).filter
          (fun t => t.target_sources.any (fun s => s.language == "cpp" || s.language == "c"))).map
          (fun t => t.filename.headD "") ∧
      ∀ c ∈ cfgs, c.type = "cppdbg" ∧ c.request = "launch" ∧ c.cwd = "/bd" := by
  refine ⟨rfl, ?_⟩
  exact provideDebugConfigurations_spec ["ws"] "/bd" [⟨"layout", "flat"⟩]
    { program := some "/override" }
    [⟨"i1", "app", "executable", ["/out/app"], ["ws", "meson.build"], [⟨"c"⟩]⟩,
     ⟨"i2", "lib", "library", ["/out/lib.a"], ["ws", "meson.build"], [⟨"c"⟩]⟩,
     ⟨"i3", "rs", "executable", ["/out/rs"], ["ws", "meson.build"], [⟨"rust"⟩]⟩]
    "flat" rfl
